import Mathlib

/-!
Shallow embedding of the Titanic-Data-Chat-App orchestration code (src/app.py)
and proofs of the specification claims about it.

External services (Pinecone vector index, HuggingFace embeddings, OpenAI chat
completions, PDF reading, langchain text splitting) are modelled as explicit
state / injected functions; every call the code makes to them is recorded in a
trace of `Effect` events so that call-counting properties (one upsert per
chunk, exactly one ingestion pass per session, ...) can be stated and proved.
-/

namespace TitanicApp

/-- The fixed HuggingFace model name used at both construction sites in
`app.py` (line 58 inside `generate_and_upload_embeddings`, and line 118 for
`st.session_state.embeddings`). -/
def mpnetModel : String := "sentence-transformers/all-mpnet-base-v2"

/-- A constructed `HuggingFaceEmbeddings(model_name=...)` handle. -/
structure EmbHandle where
  model_name : String
  deriving Repr, DecidableEq

/-- A langchain document / chunk: the code only ever reads `page_content`. -/
structure Chunk where
  page_content : String
  deriving Repr, DecidableEq

/-- The metadata dict `{"chunk_id": i, "text": chunk_text}` attached to an
upserted vector (`app.py` line 63). -/
structure EntryMeta where
  chunk_id : Nat
  text : String
  deriving Repr, DecidableEq

/-- Metadata of a match returned by `index.query`: the code reads the keys
`"text"` and `"chunk_id"` with `.get` defaults, so both are optional here. -/
structure RMeta where
  text : Option String
  chunk_id : Option Int
  deriving Repr, DecidableEq

/-- One match in a Pinecone query response; the code reads only `metadata`. -/
structure QMatch where
  metadata : RMeta
  deriving Repr, DecidableEq

/-- A Pinecone query response: the code reads `response['matches']`
(field named `matchList` because `matches` is a Lean keyword). -/
structure QueryResponse where
  matchList : List QMatch
  deriving Repr, DecidableEq

/-- The dict `{"Text": ..., "Page": ...}` built by `retrieve_related_sections`. -/
structure Section where
  Text : String
  Page : Int
  deriving Repr, DecidableEq

/-- A chat message `{"role": ..., "content": ...}`. -/
structure ChatMessage where
  role : String
  content : String
  deriving Repr, DecidableEq

/-- `response.choices[i].message` of the chat-completion response. -/
structure ChoiceMessage where
  content : String
  deriving Repr, DecidableEq

/-- One element of `response.choices`. -/
structure ChatChoice where
  message : ChoiceMessage
  deriving Repr, DecidableEq

/-- A chat-completion response; the code reads `response.choices[0].message.content`. -/
structure ChatResponse where
  choices : List ChatChoice
  deriving Repr, DecidableEq

/-- Arguments of a `pc.create_index(...)` call (`app.py` lines 25-33). -/
structure CreateCall where
  name : String
  dimension : Nat
  metric : String
  cloud : String
  region : String
  deriving Repr, DecidableEq

/-- Trace events: one constructor per externally observable call the code
makes.  `V` is the (abstract) embedding-vector type. -/
inductive Effect (V : Type) where
  /-- a `HuggingFaceEmbeddings(model_name=...)` construction -/
  | constructEmb (model_name : String)
  /-- a call of `initialize_pinecone` (the Index Provisioner) -/
  | provisionCall
  /-- a `pc.create_index(...)` call -/
  | createIndex (c : CreateCall)
  /-- a `PyPDFLoader(file).load()` document read -/
  | readDoc (path : String)
  /-- an `embeddings.embed_query(text)` call on the handle with this model name -/
  | embedCall (model_name : String) (text : String)
  /-- an `index.upsert(vectors=[...])` call; the list is the `vectors` argument -/
  | upsertCall (vectors : List (String × V × EntryMeta))
  /-- an `index.query(vector=..., top_k=..., include_metadata=...)` call -/
  | queryCall (vector : V) (top_k : Nat) (include_metadata : Bool)
  /-- a `client.chat.completions.create(messages=..., model=...)` call -/
  | chatCall (model : String) (messages : List ChatMessage)
  deriving Repr

/-! ### Index Provisioner (`initialize_pinecone`, app.py lines 19-37) -/

/-- The externally visible Pinecone account state: the set of index names the
service reports via `pc.list_indexes().names()`. -/
structure PineconeState where
  names : List String
  deriving Repr, DecidableEq

/-- Effect of a `pc.create_index(name, ...)` call on the service state: the
name is added to the account's index names. -/
def createIndexState (s : PineconeState) (name : String) : PineconeState :=
  ⟨s.names ++ [name]⟩

/-- `initialize_pinecone` (app.py lines 19-37): checks whether `"titanic"` is
among the existing index names; if not, creates it with dimension 768, metric
`'euclidean'`, serverless spec aws/us-east-1; returns the handle
(`pc, index_name`).  We return the updated service state, the index name, and
the list of create-calls issued. -/
def initialize_pinecone (s : PineconeState) :
    PineconeState × String × List CreateCall :=
  let index_name := "titanic"
  if index_name ∉ s.names then
    (createIndexState s index_name, index_name,
      [⟨index_name, 768, "euclidean", "aws", "us-east-1"⟩])
  else
    (s, index_name, [])

/-! ### Ingestion Pipeline (`generate_and_upload_embeddings`, app.py lines 57-65) -/

/-- The external calls the ingestion loop makes, as injected fallible
functions: `embed_query` on a constructed handle, and `index.upsert` (the
index handle is `Option String`: `st.session_state.pinecone_index` starts as
`None`).  `E` is the exception type. -/
structure IngestEnv (V E : Type) where
  embed_query : EmbHandle → String → Except E V
  upsert : Option String → List (String × V × EntryMeta) → Except E Unit

/-- The `for i, chunk in enumerate(chunks)` loop of
`generate_and_upload_embeddings` (app.py lines 59-64), starting at index `i`:
for each chunk, embed its `page_content`, build metadata
`{"chunk_id": i, "text": chunk_text}`, and upsert the singleton list
`[(f"chunk-{i}", embedding, metadata)]`.  An exception from `embed_query` or
`upsert` aborts the loop and propagates; the trace records the calls made up
to that point. -/
def uploadLoop {V E : Type} (env : IngestEnv V E) (embeddings : EmbHandle)
    (index : Option String) : Nat → List Chunk → Except E Unit × List (Effect V)
  | _, [] => (Except.ok (), [])
  | i, chunk :: rest =>
    let chunk_text := chunk.page_content
    match env.embed_query embeddings chunk_text with
    | Except.error e =>
        (Except.error e, [Effect.embedCall embeddings.model_name chunk_text])
    | Except.ok embedding =>
      let metadata : EntryMeta := ⟨i, chunk_text⟩
      let vectors := [(s!"chunk-{i}", embedding, metadata)]
      match env.upsert index vectors with
      | Except.error e =>
          (Except.error e,
           [Effect.embedCall embeddings.model_name chunk_text,
            Effect.upsertCall vectors])
      | Except.ok _ =>
          let r := uploadLoop env embeddings index (i + 1) rest
          (r.1, Effect.embedCall embeddings.model_name chunk_text
                  :: Effect.upsertCall vectors :: r.2)

/-- `generate_and_upload_embeddings(chunks, index)` (app.py lines 57-65):
constructs its own `HuggingFaceEmbeddings` handle (line 58), then runs the
enumerate loop from index 0. -/
def generate_and_upload_embeddings {V E : Type} (env : IngestEnv V E)
    (chunks : List Chunk) (index : Option String) :
    Except E Unit × List (Effect V) :=
  let embeddings : EmbHandle := ⟨mpnetModel⟩
  let r := uploadLoop env embeddings index 0 chunks
  (r.1, Effect.constructEmb mpnetModel :: r.2)

/-- An ingestion environment in which every external call succeeds: embedding
is the pure function `f` and upserts always succeed (`E := Empty`). -/
def pureIngestEnv {V : Type} (f : String → V) : IngestEnv V Empty :=
  ⟨fun _ text => Except.ok (f text), fun _ _ => Except.ok ()⟩

/-! ### Retriever (`retrieve_related_sections`, app.py lines 68-78) -/

/-- External calls of the query path: `embed_query` on the session handle and
`index.query` (handle, vector, top_k, include_metadata). -/
structure QueryEnv (V : Type) where
  embed_query : EmbHandle → String → V
  query : Option String → V → Nat → Bool → QueryResponse

/-- `retrieve_related_sections(user_query, embeddings, index)` (app.py lines
68-78): embeds the query, issues one `index.query(vector=..., top_k=5,
include_metadata=True)`, and maps each match's metadata to
`{"Text": metadata.get("text", ""), "Page": metadata.get("chunk_id", -1)}`. -/
def retrieve_related_sections {V : Type} (env : QueryEnv V) (user_query : String)
    (embeddings : EmbHandle) (index : Option String) :
    List Section × List (Effect V) :=
  let query_vector := env.embed_query embeddings user_query
  let response := env.query index query_vector 5 true
  let results := response.matchList.map (fun m =>
    ⟨m.metadata.text.getD "", m.metadata.chunk_id.getD (-1)⟩)
  (results,
   [Effect.embedCall embeddings.model_name user_query,
    Effect.queryCall query_vector 5 true])

/-! ### Answer Generator (`generate_response`, app.py lines 81-100) -/

/-- The external chat-completion client:
`client.chat.completions.create(messages=..., model=...)`. -/
structure ChatEnv where
  create : List ChatMessage → String → ChatResponse

/-- The f-string prompt template of app.py lines 83-94, with the `context`
and `user_query` holes substituted (whitespace exactly as in the source
triple-quoted literal). -/
def titanicPrompt (context user_query : String) : String :=
  "\n        You are a knowledgeable assistant specializing in Titanic Data Analysis.\n        Use the following context information to address the user's query.\n\n        Context:\n        "
    ++ context
    ++ "\n\n        User Query:\n        "
    ++ user_query
    ++ "\n\n        Generate a clear, precise, and actionable response.\n    "

/-- `generate_response(user_query, relevant_sections)` (app.py lines 81-100):
joins the sections as `f"Page {int(res['Page'])}:\n{res['Text']}"` with blank
lines (`Page` is already an `Int` here, so Python's `int()` is the identity),
fills the prompt template, issues one chat-completion call with model
`"gpt-4o-mini"` and a single user message, and returns
`response.choices[0].message.content` (`none` models the `IndexError` when
`choices` is empty). -/
def generate_response {V : Type} (env : ChatEnv) (user_query : String)
    (relevant_sections : List Section) : Option String × List (Effect V) :=
  let context := String.intercalate "\n\n"
    (relevant_sections.map (fun res => s!"Page {res.Page}:\n{res.Text}"))
  let prompt := titanicPrompt context user_query
  let messages : List ChatMessage := [⟨"user", prompt⟩]
  let response := env.create messages "gpt-4o-mini"
  ((response.choices.head?).map (fun ch => ch.message.content),
   [Effect.chatCall "gpt-4o-mini" messages])

/-! ### Query processing (`get_result`, app.py lines 103-107) -/

/-- `get_result(user_query, embeddings, index)` (app.py lines 103-107):
retrieve; if the result list is falsy (empty) return the fixed message
without calling the LLM, else generate a response from the sections. -/
def get_result {V : Type} (qenv : QueryEnv V) (cenv : ChatEnv)
    (user_query : String) (embeddings : EmbHandle) (index : Option String) :
    Option String × List (Effect V) :=
  let r := retrieve_related_sections qenv user_query embeddings index
  let relevant_sections := r.1
  if relevant_sections.isEmpty then
    (some "No relevant sections found.", r.2)
  else
    let g := generate_response cenv user_query relevant_sections
    (g.1, r.2 ++ g.2)

/-! ### Session Controller (Streamlit script, app.py lines 110-164)

Streamlit reruns the whole script on every user interaction; `st.session_state`
persists across reruns.  A rerun is modelled by `script_run` applied to one
`Event` (the interaction that triggered it); a session is a fold over a list
of events (`run`). -/

/-- `reading_document(file)` (app.py lines 40-44): delegates to
`PyPDFLoader(file).load()` (injected as `readFn`), recording the read. -/
def reading_document {V : Type} (readFn : String → List Chunk) (file : String) :
    List Chunk × List (Effect V) :=
  (readFn file, [Effect.readDoc file])

/-- The session page: `st.session_state.page` is `"first_page"` or
`"chatbot"`. -/
inductive PageState where
  | first_page
  | chatbot
  deriving Repr, DecidableEq

/-- `st.session_state`: each field is `Option` because the corresponding key
may be absent before the init block (lines 110-118) has run.  The key
`pinecone_index` set to Python `None` is identified with the absent key
(the code only ever tests key presence, never `None`-ness). -/
structure SessionState where
  page : Option PageState
  index_initialized : Option Bool
  pinecone_index : Option String
  embeddings : Option EmbHandle
  deriving Repr, DecidableEq

/-- The empty `st.session_state` at the start of a session. -/
def initialSession : SessionState := ⟨none, none, none, none⟩

/-- The external world as seen by one session: the Pinecone account state and
the injected service calls.  The ingestion environment has `E := Empty`: this
session model is the run in which no external call raises (the exception
behavior of ingestion is proved separately about
`generate_and_upload_embeddings`). -/
structure Env (V : Type) where
  pine : PineconeState
  read_document : String → List Chunk
  chunk_data : List Chunk → List Chunk
  ingest : IngestEnv V Empty
  qenv : QueryEnv V
  cenv : ChatEnv

/-- A user interaction triggering a script rerun: pressing the start button,
or submitting the text input (possibly empty). -/
inductive Event where
  | start
  | query (text : String)
  deriving Repr, DecidableEq

/-- The init block (app.py lines 110-118): establish missing session keys;
line 118 constructs `st.session_state.embeddings =
HuggingFaceEmbeddings(model_name=...)` (a recorded construction). -/
def init_block {V : Type} (s : SessionState) : SessionState × List (Effect V) :=
  let s1 := if s.page = none then
      { s with page := some PageState.first_page, index_initialized := some false }
    else s
  if s1.embeddings = none then
    ({ s1 with embeddings := some ⟨mpnetModel⟩ }, [Effect.constructEmb mpnetModel])
  else (s1, [])

/-- The start-button handler (app.py lines 136-148): run
`initialize_pinecone`, store the index handle, then — only if
`st.session_state.index_initialized` is falsy — read the document, chunk it,
and run the ingestion pipeline and set `index_initialized = True`; finally set
`page = "chatbot"`. -/
def start_handler {V : Type} (env : Env V) (s : SessionState) :
    Env V × SessionState × List (Effect V) :=
  let p := initialize_pinecone env.pine
  let env' := { env with pine := p.1 }
  let s1 := { s with pinecone_index := some p.2.1 }
  let provTrace : List (Effect V) :=
    Effect.provisionCall :: p.2.2.map Effect.createIndex
  if !(s1.index_initialized.getD false) then
    let doc := reading_document (V := V) env.read_document
      "Knowledge_base/titanic_final_eda.pdf"
    let chunks := env.chunk_data doc.1
    let ing := generate_and_upload_embeddings env.ingest chunks s1.pinecone_index
    (env',
     { s1 with index_initialized := some true, page := some PageState.chatbot },
     provTrace ++ doc.2 ++ ing.2)
  else
    (env', { s1 with page := some PageState.chatbot }, provTrace)

/-- One Streamlit script rerun (app.py lines 110-164): init block, then the
`first_page` block (whose button handler fires on a `start` event), then the
`chatbot` block (which calls `get_result` when the text input is non-empty). -/
def script_run {V : Type} (env : Env V) (s : SessionState) (ev : Event) :
    Env V × SessionState × List (Effect V) :=
  let ib := init_block (V := V) s
  let s1 := ib.1
  match s1.page, ev with
  | some PageState.first_page, Event.start =>
      let h := start_handler env s1
      (h.1, h.2.1, ib.2 ++ h.2.2)
  | some PageState.chatbot, Event.query q =>
      if q ≠ "" then
        let g := get_result env.qenv env.cenv q (s1.embeddings.getD ⟨mpnetModel⟩)
          s1.pinecone_index
        (env, s1, ib.2 ++ g.2)
      else (env, s1, ib.2)
  | _, _ => (env, s1, ib.2)

/-- A whole session: fold `script_run` over the interaction events,
accumulating the trace. -/
def run {V : Type} (env : Env V) (s : SessionState) :
    List Event → Env V × SessionState × List (Effect V)
  | [] => (env, s, [])
  | ev :: evs =>
      let r1 := script_run env s ev
      let r2 := run r1.1 r1.2.1 evs
      (r2.1, r2.2.1, r1.2.2 ++ r2.2.2)

/-- Recognizer for document-read events (one per ingestion pass: reading the
document is step 1 of the Ingestion Pipeline and happens nowhere else). -/
def isReadDoc {V : Type} : Effect V → Bool
  | Effect.readDoc _ => true
  | _ => false

/-- Number of ingestion passes recorded in a trace. -/
def countReadDoc {V : Type} (tr : List (Effect V)) : Nat :=
  tr.countP isReadDoc

/-- Recognizer for `HuggingFaceEmbeddings(...)` constructions. -/
def isConstructEmb {V : Type} : Effect V → Bool
  | Effect.constructEmb _ => true
  | _ => false

/-- Number of embedding-handle constructions recorded in a trace. -/
def countConstructEmb {V : Type} (tr : List (Effect V)) : Nat :=
  tr.countP isConstructEmb

/-- Recognizer for `index.upsert` calls. -/
def isUpsertCall {V : Type} : Effect V → Bool
  | Effect.upsertCall _ => true
  | _ => false

/-- Events an app trace may contain under the (amended) embedding-consistency
property: every embedding-handle construction and every embedding call uses
the one fixed model name, and every index creation uses dimension 768. -/
def goodEmbedEvent {V : Type} : Effect V → Bool
  | Effect.constructEmb n => n == mpnetModel
  | Effect.embedCall n _ => n == mpnetModel
  | Effect.createIndex c => c.dimension == 768
  | _ => true

/-- States reachable before any start action: the page key is absent or
`"first_page"`, and `index_initialized` is absent or `False`. -/
def PreStart (s : SessionState) : Prop :=
  (s.page = none ∨ s.page = some PageState.first_page) ∧
  (s.index_initialized = none ∨ s.index_initialized = some false)

/-- The embeddings key is absent or holds the handle built at line 118. -/
def EmbInv (s : SessionState) : Prop :=
  s.embeddings = none ∨ s.embeddings = some ⟨mpnetModel⟩

/-! ### Chunker (spec model)

`chunk_data` (app.py lines 47-54) delegates the actual splitting to
langchain's `RecursiveCharacterTextSplitter`, which is an external library
whose source is not part of this repository. -/

/-- Modelled from the spec: the splitting algorithm inside langchain's
`RecursiveCharacterTextSplitter` is missing from src, so we model the spec's
description — "sliding window of `chunk_size` characters with
`chunk_overlap` characters shared between consecutive windows".  Fuel-indexed
worker: each step emits a window of `chunk_size` elements and advances by
`chunk_size - chunk_overlap`. -/
def slidingChunksAux {α : Type} (chunk_size chunk_overlap : Nat) :
    Nat → List α → List (List α)
  | 0, text => [text]
  | fuel + 1, text =>
    if text.length ≤ chunk_size ∨ chunk_size ≤ chunk_overlap then [text]
    else
      text.take chunk_size ::
        slidingChunksAux chunk_size chunk_overlap fuel
          (text.drop (chunk_size - chunk_overlap))

/-- Modelled from the spec: sliding-window chunking of a text with windows of
`chunk_size` and `chunk_overlap` shared characters (the app calls it with the
defaults `chunk_size=1000`, `chunk_overlap=50`).  The text's length is enough
fuel since every step consumes at least one element. -/
def slidingChunks {α : Type} (chunk_size chunk_overlap : Nat)
    (text : List α) : List (List α) :=
  slidingChunksAux chunk_size chunk_overlap text.length text

/-! ### Concrete instances used by the witnesses -/

/-- An ingestion environment whose embedding call fails exactly on the text
`"bb"` and whose upserts always succeed. -/
def envFailBB : IngestEnv Nat Unit :=
  ⟨fun _ t => if t = "bb" then Except.error () else Except.ok 7,
   fun _ _ => Except.ok ()⟩

/-- A query environment whose index always returns no matches. -/
def qenvEmpty : QueryEnv Nat :=
  ⟨fun _ _ => 3, fun _ _ _ _ => ⟨[]⟩⟩

/-- A query environment whose index returns one match with empty metadata
(no `"text"` key, no `"chunk_id"` key). -/
def qenvBare : QueryEnv Nat :=
  ⟨fun _ _ => 3, fun _ _ _ _ => ⟨[⟨⟨none, none⟩⟩]⟩⟩

/-- A chat environment that always answers with the single choice
`"ANSWER"`. -/
def cenvAnswer : ChatEnv :=
  ⟨fun _ _ => ⟨[⟨⟨"ANSWER"⟩⟩]⟩⟩

/-- A concrete full session environment over `V := Nat`: a fresh Pinecone
account, a one-page document, identity chunking, always-succeeding embedding
and upsert, an index with no matches, and the `cenvAnswer` chat service. -/
def demoEnv : Env Nat :=
  ⟨⟨[]⟩, fun _ => [⟨"pg"⟩], fun docs => docs, pureIngestEnv (fun _ => 0),
   qenvEmpty, cenvAnswer⟩

/-! ## Theorems -/

/-- After one call of `initialize_pinecone`, `"titanic"` is among the
service's index names. -/
theorem titanic_mem_after_init (s : PineconeState) :
    "titanic" ∈ (initialize_pinecone s).1.names := by
  unfold initialize_pinecone
  by_cases h : "titanic" ∈ s.names
  · simp [h]
  · simp [h, createIndexState]

/-- The returned handle is always the index name `"titanic"`. -/
theorem initialize_pinecone_handle (s : PineconeState) :
    (initialize_pinecone s).2.1 = "titanic" := by
  unfold initialize_pinecone
  by_cases h : "titanic" ∈ s.names <;> simp [h]

/-- When the index already exists, no create-call is issued. -/
theorem init_no_create_of_mem (s : PineconeState) (h : "titanic" ∈ s.names) :
    (initialize_pinecone s).2.2 = [] := by
  unfold initialize_pinecone
  simp [h]

/-- C5: calling the Index Provisioner twice (always with the same hard-coded
name `"titanic"`, dimension 768 and metric `'euclidean'`) is idempotent: the
second call issues no create-index call and returns the same handle as the
first. -/
theorem initialize_pinecone_idempotent (s : PineconeState) :
    (initialize_pinecone (initialize_pinecone s).1).2.1
      = (initialize_pinecone s).2.1 ∧
    (initialize_pinecone (initialize_pinecone s).1).2.2 = [] := by
  constructor
  · rw [initialize_pinecone_handle, initialize_pinecone_handle]
  · exact init_no_create_of_mem _ (titanic_mem_after_init s)

/-- C2: if the list of retrieved sections is empty, `get_result` returns
exactly the fixed string "No relevant sections found." and its trace contains
no chat-completion call. -/
theorem empty_retrieval_short_circuit {V : Type} (qenv : QueryEnv V)
    (cenv : ChatEnv) (q : String) (emb : EmbHandle) (index : Option String)
    (h : (retrieve_related_sections qenv q emb index).1 = []) :
    (get_result qenv cenv q emb index).1 = some "No relevant sections found." ∧
    ∀ (m : String) (msgs : List ChatMessage),
      Effect.chatCall m msgs ∉ (get_result qenv cenv q emb index).2 := by
  have hm : (qenv.query index (qenv.embed_query emb q) 5 true).matchList = [] := by
    simpa [retrieve_related_sections] using h
  constructor
  · simp [get_result, retrieve_related_sections, hm]
  · intro m msgs
    simp [get_result, retrieve_related_sections, hm]

/-- Witness for C2 at a concrete environment whose index has no matches. -/
theorem empty_retrieval_short_circuit_witness :
    (get_result qenvEmpty cenvAnswer "q" ⟨mpnetModel⟩ none).1
      = some "No relevant sections found." :=
  (empty_retrieval_short_circuit qenvEmpty cenvAnswer "q" ⟨mpnetModel⟩ none rfl).1

/-- C4: the retriever embeds the query, issues a single nearest-neighbor
query with `top_k=5` and `include_metadata=True` (the trace is exactly those
two calls), maps the i-th returned match's metadata to the i-th
`{Text, Page}` pair (rank order preserved), and returns the empty list when
the service returns no matches. -/
theorem retriever_contract {V : Type} (env : QueryEnv V) (q : String)
    (emb : EmbHandle) (index : Option String) :
    (retrieve_related_sections env q emb index).2 =
      [Effect.embedCall emb.model_name q,
       Effect.queryCall (env.embed_query emb q) 5 true] ∧
    (∀ i : Nat, (retrieve_related_sections env q emb index).1[i]? =
       ((env.query index (env.embed_query emb q) 5 true).matchList[i]?).map
         (fun m =>
           (⟨m.metadata.text.getD "", m.metadata.chunk_id.getD (-1)⟩ : Section))) ∧
    ((env.query index (env.embed_query emb q) 5 true).matchList = [] →
       (retrieve_related_sections env q emb index).1 = []) := by
  refine ⟨rfl, ?_, ?_⟩
  · intro i
    simp [retrieve_related_sections]
  · intro hm
    simp [retrieve_related_sections, hm]

/-- Witness for C4: with a concrete environment returning no matches, the
retriever returns the empty list. -/
theorem retriever_contract_witness :
    (retrieve_related_sections qenvEmpty "q" ⟨mpnetModel⟩ none).1 = [] :=
  (retriever_contract qenvEmpty "q" ⟨mpnetModel⟩ none).2.2 rfl

/-- C10: the retriever is total on matches with missing metadata keys: it
still produces one section per match, and a match lacking the "text" key
yields `Text = ""` while one lacking the "chunk_id" key yields `Page = -1`. -/
theorem retriever_missing_metadata_safe {V : Type} (env : QueryEnv V)
    (q : String) (emb : EmbHandle) (index : Option String) (i : Nat)
    (m : QMatch)
    (hm : (env.query index (env.embed_query emb q) 5 true).matchList[i]?
        = some m) :
    (retrieve_related_sections env q emb index).1.length =
      (env.query index (env.embed_query emb q) 5 true).matchList.length ∧
    ∃ sec : Section,
      (retrieve_related_sections env q emb index).1[i]? = some sec ∧
      (m.metadata.text = none → sec.Text = "") ∧
      (m.metadata.chunk_id = none → sec.Page = -1) := by
  constructor
  · simp [retrieve_related_sections]
  · refine ⟨⟨m.metadata.text.getD "", m.metadata.chunk_id.getD (-1)⟩, ?_, ?_, ?_⟩
    · simp [retrieve_related_sections, hm]
    · intro h
      simp [h]
    · intro h
      simp [h]

/-- Witness for C10 at a concrete index returning one match with no metadata
keys. -/
theorem retriever_missing_metadata_safe_witness :
    (retrieve_related_sections qenvBare "q" ⟨mpnetModel⟩ none).1.length =
      (qenvBare.query none (qenvBare.embed_query ⟨mpnetModel⟩ "q") 5
        true).matchList.length ∧
    ∃ sec : Section,
      (retrieve_related_sections qenvBare "q" ⟨mpnetModel⟩ none).1[0]?
          = some sec ∧
      ((⟨⟨none, none⟩⟩ : QMatch).metadata.text = none → sec.Text = "") ∧
      ((⟨⟨none, none⟩⟩ : QMatch).metadata.chunk_id = none → sec.Page = -1) :=
  retriever_missing_metadata_safe qenvBare "q" ⟨mpnetModel⟩ none 0
    ⟨⟨none, none⟩⟩ rfl

/-- C6: for a (non-empty) section list the answer generator issues exactly
one chat-completion call, with model `"gpt-4o-mini"` and a single user-role
message containing the fixed prompt template filled with the
`"Page {page}:\n{text}"` sections joined by blank lines and the raw query;
and it returns the first choice's message content verbatim. -/
theorem answer_generator_contract {V : Type} (cenv : ChatEnv) (q : String)
    (sections : List Section) (_hne : sections ≠ []) :
    (generate_response (V := V) cenv q sections).2 =
      [Effect.chatCall "gpt-4o-mini"
        [⟨"user", titanicPrompt (String.intercalate "\n\n"
            (sections.map (fun res => s!"Page {res.Page}:\n{res.Text}"))) q⟩]] ∧
    (∀ (ch : ChatChoice) (rest : List ChatChoice),
       (cenv.create
          [⟨"user", titanicPrompt (String.intercalate "\n\n"
              (sections.map (fun res => s!"Page {res.Page}:\n{res.Text}"))) q⟩]
          "gpt-4o-mini").choices = ch :: rest →
       (generate_response (V := V) cenv q sections).1
         = some ch.message.content) := by
  constructor
  · rfl
  · intro ch rest hch
    simp [generate_response, hch]

/-- Witness for C6 at a concrete chat service with one choice. -/
theorem answer_generator_contract_witness :
    (generate_response (V := Nat) cenvAnswer "q" [⟨"t", (2 : Int)⟩]).1
      = some "ANSWER" :=
  (answer_generator_contract (V := Nat) cenvAnswer "q" [⟨"t", (2 : Int)⟩]
    (List.cons_ne_nil _ _)).2 ⟨⟨"ANSWER"⟩⟩ [] rfl

/-- In a fully successful environment the upload loop produces one
embed-then-upsert pair per chunk, in enumeration order starting at `i`. -/
theorem uploadLoop_pure {V : Type} (f : String → V) (index : Option String)
    (i : Nat) (chunks : List Chunk) :
    uploadLoop (pureIngestEnv f) ⟨mpnetModel⟩ index i chunks =
      (Except.ok (), (chunks.enumFrom i).flatMap (fun p =>
        [Effect.embedCall mpnetModel p.2.page_content,
         Effect.upsertCall [(s!"chunk-{p.1}", f p.2.page_content,
           ⟨p.1, p.2.page_content⟩)]])) := by
  have he : ∀ (h : EmbHandle) (t : String),
      (pureIngestEnv f).embed_query h t = Except.ok (f t) := fun _ _ => rfl
  have hu : ∀ (idx : Option String) (vs : List (String × V × EntryMeta)),
      (pureIngestEnv f).upsert idx vs = Except.ok () := fun _ _ => rfl
  induction chunks generalizing i with
  | nil => simp [uploadLoop, List.enumFrom]
  | cons c rest ih => simp [uploadLoop, he, hu, List.enumFrom, ih]

/-- Counting upsert events in the expected ingestion trace: one per chunk. -/
theorem countP_upsert_expected {V : Type} (f : String → V)
    (l : List (Nat × Chunk)) :
    List.countP (isUpsertCall (V := V))
      (l.flatMap (fun p =>
        [Effect.embedCall mpnetModel p.2.page_content,
         Effect.upsertCall [(s!"chunk-{p.1}", f p.2.page_content,
           ⟨p.1, p.2.page_content⟩)]])) = l.length := by
  induction l with
  | nil => simp
  | cons p t ih => simp [List.countP_cons, isUpsertCall, ih]

/-- C3: in a fully successful environment, ingestion processes the chunks in
sequence order — for the i-th chunk it embeds its text and issues one upsert
whose `vectors` argument is the singleton `(f"chunk-{i}", embedding,
{"chunk_id": i, "text": chunk_text})` — and the number of upsert calls equals
the number of chunks (no batching). -/
theorem ingestion_per_chunk_upserts {V : Type} (f : String → V)
    (chunks : List Chunk) (index : Option String) :
    generate_and_upload_embeddings (pureIngestEnv f) chunks index =
      (Except.ok (), Effect.constructEmb mpnetModel ::
        chunks.enum.flatMap (fun p =>
          [Effect.embedCall mpnetModel p.2.page_content,
           Effect.upsertCall [(s!"chunk-{p.1}", f p.2.page_content,
             ⟨p.1, p.2.page_content⟩)]])) ∧
    List.countP (isUpsertCall (V := V))
      (generate_and_upload_embeddings (pureIngestEnv f) chunks index).2
      = chunks.length := by
  have h := uploadLoop_pure f index 0 chunks
  constructor
  · simp [generate_and_upload_embeddings, h, List.enum]
  · simp [generate_and_upload_embeddings, h, List.enum, List.countP_cons,
      isUpsertCall, countP_upsert_expected]

/-- Prepending chunks that all embed and upsert successfully: the loop on
`pre ++ rest` runs `pre` completely (its exact trace, one embed and one
upsert per chunk) and continues with `rest` at the shifted index. -/
theorem uploadLoop_append {V E : Type} (env : IngestEnv V E)
    (index : Option String) (v : Nat → V) :
    ∀ (i : Nat) (pre rest : List Chunk),
    (∀ k (hk : k < pre.length),
       env.embed_query ⟨mpnetModel⟩ (pre.get ⟨k, hk⟩).page_content
         = Except.ok (v (i + k))) →
    (∀ k (hk : k < pre.length),
       env.upsert index [(s!"chunk-{i + k}", v (i + k),
         ⟨i + k, (pre.get ⟨k, hk⟩).page_content⟩)] = Except.ok ()) →
    uploadLoop env ⟨mpnetModel⟩ index i (pre ++ rest) =
      ((uploadLoop env ⟨mpnetModel⟩ index (i + pre.length) rest).1,
       ((pre.enumFrom i).flatMap (fun p =>
          [Effect.embedCall mpnetModel p.2.page_content,
           Effect.upsertCall [(s!"chunk-{p.1}", v p.1, ⟨p.1, p.2.page_content⟩)]]))
         ++ (uploadLoop env ⟨mpnetModel⟩ index (i + pre.length) rest).2) := by
  intro i pre rest
  induction pre generalizing i with
  | nil =>
      intro _ _
      simp [List.enumFrom]
  | cons c pre' ih =>
      intro h1 h2
      have e0 : env.embed_query ⟨mpnetModel⟩ c.page_content
          = Except.ok (v i) := by
        have := h1 0 (Nat.succ_pos _)
        simpa using this
      have u0 : env.upsert index [(s!"chunk-{i}", v i, ⟨i, c.page_content⟩)]
          = Except.ok () := by
        have := h2 0 (Nat.succ_pos _)
        simpa using this
      have h1' : ∀ k (hk : k < pre'.length),
          env.embed_query ⟨mpnetModel⟩ (pre'.get ⟨k, hk⟩).page_content
            = Except.ok (v ((i + 1) + k)) := by
        intro k hk
        have h := h1 (k + 1) (Nat.succ_lt_succ hk)
        have hidx : i + (k + 1) = (i + 1) + k := by omega
        rw [hidx] at h
        simpa using h
      have h2' : ∀ k (hk : k < pre'.length),
          env.upsert index [(s!"chunk-{(i + 1) + k}", v ((i + 1) + k),
            ⟨(i + 1) + k, (pre'.get ⟨k, hk⟩).page_content⟩)] = Except.ok () := by
        intro k hk
        have h := h2 (k + 1) (Nat.succ_lt_succ hk)
        have hidx : i + (k + 1) = (i + 1) + k := by omega
        rw [hidx] at h
        simpa using h
      have harith : i + (c :: pre').length = (i + 1) + pre'.length := by
        simp only [List.length_cons]
        omega
      rw [List.cons_append]
      simp only [uploadLoop, e0, u0, ih (i + 1) h1' h2']
      rw [harith]
      simp [List.enumFrom]

/-- C7: if every chunk before position `pre.length` embeds and upserts
successfully and the chunk at that position fails (in its embed call or in
its upsert call) with exception `e`, then the whole ingestion returns that
error, its trace is exactly the per-chunk events of the preceding chunks
(each processed exactly once, in order, never retried) followed only by the
failing chunk's own calls, and no later chunk is processed. -/
theorem ingestion_abort_propagates {V E : Type} (env : IngestEnv V E)
    (index : Option String) (pre : List Chunk) (c : Chunk) (post : List Chunk)
    (e : E) (v : Nat → V)
    (h1 : ∀ k (hk : k < pre.length),
       env.embed_query ⟨mpnetModel⟩ (pre.get ⟨k, hk⟩).page_content
         = Except.ok (v k))
    (h2 : ∀ k (hk : k < pre.length),
       env.upsert index [(s!"chunk-{k}", v k, ⟨k, (pre.get ⟨k, hk⟩).page_content⟩)]
         = Except.ok ())
    (hfail : env.embed_query ⟨mpnetModel⟩ c.page_content = Except.error e ∨
       ∃ w, env.embed_query ⟨mpnetModel⟩ c.page_content = Except.ok w ∧
         env.upsert index [(s!"chunk-{pre.length}", w,
           ⟨pre.length, c.page_content⟩)] = Except.error e) :
    (generate_and_upload_embeddings env (pre ++ c :: post) index).1
        = Except.error e ∧
    ∃ tail,
      (generate_and_upload_embeddings env (pre ++ c :: post) index).2 =
        Effect.constructEmb mpnetModel ::
          ((pre.enum.flatMap (fun p =>
            [Effect.embedCall mpnetModel p.2.page_content,
             Effect.upsertCall [(s!"chunk-{p.1}", v p.1, ⟨p.1, p.2.page_content⟩)]]))
            ++ tail) ∧
      (tail = [Effect.embedCall mpnetModel c.page_content] ∨
       ∃ w, tail = [Effect.embedCall mpnetModel c.page_content,
         Effect.upsertCall [(s!"chunk-{pre.length}", w,
           ⟨pre.length, c.page_content⟩)]]) := by
  have h1z : ∀ k (hk : k < pre.length),
      env.embed_query ⟨mpnetModel⟩ (pre.get ⟨k, hk⟩).page_content
        = Except.ok (v (0 + k)) := by
    intro k hk
    simpa using h1 k hk
  have h2z : ∀ k (hk : k < pre.length),
      env.upsert index [(s!"chunk-{0 + k}", v (0 + k),
        ⟨0 + k, (pre.get ⟨k, hk⟩).page_content⟩)] = Except.ok () := by
    intro k hk
    simpa using h2 k hk
  have happ := uploadLoop_append env index v 0 pre (c :: post) h1z h2z
  rcases hfail with hfe | ⟨w, hwe, hwu⟩
  · have hstep : uploadLoop env ⟨mpnetModel⟩ index pre.length (c :: post) =
        (Except.error e, [Effect.embedCall mpnetModel c.page_content]) := by
      simp [uploadLoop, hfe]
    refine ⟨?_, [Effect.embedCall mpnetModel c.page_content], ?_, Or.inl rfl⟩
    · simp [generate_and_upload_embeddings, happ, hstep]
    · simp [generate_and_upload_embeddings, happ, hstep, List.enum]
  · have hstep : uploadLoop env ⟨mpnetModel⟩ index pre.length (c :: post) =
        (Except.error e,
         [Effect.embedCall mpnetModel c.page_content,
          Effect.upsertCall [(s!"chunk-{pre.length}", w,
            ⟨pre.length, c.page_content⟩)]]) := by
      simp [uploadLoop, hwe, hwu]
    refine ⟨?_,
      [Effect.embedCall mpnetModel c.page_content,
       Effect.upsertCall [(s!"chunk-{pre.length}", w,
         ⟨pre.length, c.page_content⟩)]], ?_, Or.inr ⟨w, rfl⟩⟩
    · simp [generate_and_upload_embeddings, happ, hstep]
    · simp [generate_and_upload_embeddings, happ, hstep, List.enum]

/-- Witness for C7: a three-chunk document whose middle chunk's embedding
call raises aborts ingestion with that error. -/
theorem ingestion_abort_propagates_witness :
    (generate_and_upload_embeddings envFailBB
        ([⟨"aa"⟩] ++ (⟨"bb"⟩ : Chunk) :: [⟨"cc"⟩]) none).1
      = Except.error () ∧
    ∃ tail,
      (generate_and_upload_embeddings envFailBB
          ([⟨"aa"⟩] ++ (⟨"bb"⟩ : Chunk) :: [⟨"cc"⟩]) none).2 =
        Effect.constructEmb mpnetModel ::
          (([(⟨"aa"⟩ : Chunk)].enum.flatMap (fun p =>
            [Effect.embedCall mpnetModel p.2.page_content,
             Effect.upsertCall [(s!"chunk-{p.1}", (fun _ : Nat => 7) p.1,
               ⟨p.1, p.2.page_content⟩)]]))
            ++ tail) ∧
      (tail = [Effect.embedCall mpnetModel (⟨"bb"⟩ : Chunk).page_content] ∨
       ∃ w, tail = [Effect.embedCall mpnetModel (⟨"bb"⟩ : Chunk).page_content,
         Effect.upsertCall [(s!"chunk-{1}", w,
           ⟨1, (⟨"bb"⟩ : Chunk).page_content⟩)]]) := by
  refine ingestion_abort_propagates envFailBB none [⟨"aa"⟩] ⟨"bb"⟩ [⟨"cc"⟩]
    () (fun _ => 7) ?_ ?_ (Or.inl rfl)
  · intro k hk
    simp only [List.length_cons, List.length_nil] at hk
    have hk0 : k = 0 := by omega
    subst hk0
    rfl
  · intro k hk
    simp only [List.length_cons, List.length_nil] at hk
    have hk0 : k = 0 := by omega
    subst hk0
    rfl

/-! ### Session-level lemmas -/

/-- `countReadDoc` distributes over trace concatenation. -/
theorem countReadDoc_append {V : Type} (a b : List (Effect V)) :
    countReadDoc (a ++ b) = countReadDoc a + countReadDoc b := by
  simp [countReadDoc, List.countP_append]

/-- `countConstructEmb` distributes over trace concatenation. -/
theorem countConstructEmb_append {V : Type} (a b : List (Effect V)) :
    countConstructEmb (a ++ b) = countConstructEmb a + countConstructEmb b := by
  simp [countConstructEmb, List.countP_append]

/-- The upload loop emits only embed and upsert events, so any counter that
ignores those counts zero on its trace. -/
theorem countP_uploadLoop_zero {V E : Type} (p : Effect V → Bool)
    (hpe : ∀ n t, p (Effect.embedCall n t) = false)
    (hpu : ∀ vs, p (Effect.upsertCall vs) = false)
    (env : IngestEnv V E) (emb : EmbHandle) :
    ∀ (index : Option String) (i : Nat) (chunks : List Chunk),
    List.countP p (uploadLoop env emb index i chunks).2 = 0 := by
  intro index i chunks
  induction chunks generalizing i with
  | nil => simp [uploadLoop]
  | cons c rest ih =>
      cases hE : env.embed_query emb c.page_content with
      | error e => simp [uploadLoop, hE, List.countP_cons, hpe]
      | ok w =>
          cases hU : env.upsert index [(s!"chunk-{i}", w, ⟨i, c.page_content⟩)] with
          | error e => simp [uploadLoop, hE, hU, List.countP_cons, hpe, hpu]
          | ok u => simp [uploadLoop, hE, hU, List.countP_cons, hpe, hpu, ih]

/-- Create-index events count zero under a counter ignoring them. -/
theorem countP_map_createIndex_zero {V : Type} (p : Effect V → Bool)
    (h : ∀ c, p (Effect.createIndex c) = false) (l : List CreateCall) :
    List.countP p (l.map (Effect.createIndex : CreateCall → Effect V)) = 0 := by
  induction l with
  | nil => simp
  | cons a t ih => simp [List.countP_cons, h, ih]

/-- The query path emits only embed, query and chat events, so any counter
ignoring those counts zero on a `get_result` trace. -/
theorem countP_get_result_zero {V : Type} (p : Effect V → Bool)
    (hpe : ∀ n t, p (Effect.embedCall n t) = false)
    (hpq : ∀ vec k b, p (Effect.queryCall vec k b) = false)
    (hpc : ∀ m msgs, p (Effect.chatCall m msgs) = false)
    (qenv : QueryEnv V) (cenv : ChatEnv) (q : String) (emb : EmbHandle)
    (index : Option String) :
    List.countP p (get_result qenv cenv q emb index).2 = 0 := by
  unfold get_result retrieve_related_sections generate_response
  dsimp only
  split <;> simp [List.countP_cons, List.countP_append, hpe, hpq, hpc]

/-- Explicit form of the init block: which fields it sets and the trace it
emits, by cases on which keys are present. -/
theorem init_block_cases {V : Type} (s : SessionState) :
    init_block (V := V) s =
      (⟨(if s.page = none then some PageState.first_page else s.page),
        (if s.page = none then some false else s.index_initialized),
        s.pinecone_index,
        (if s.embeddings = none then some ⟨mpnetModel⟩ else s.embeddings)⟩,
       if s.embeddings = none then [Effect.constructEmb mpnetModel] else []) := by
  unfold init_block
  by_cases hp : s.page = none <;> by_cases he : s.embeddings = none <;>
    simp [hp, he]

/-- A script rerun without a start action, from a pre-start state: no
document read occurs and the state stays pre-start. -/
theorem script_run_no_start {V : Type} (env : Env V) (s : SessionState)
    (ev : Event) (hs : PreStart s) (hev : ev ≠ Event.start) :
    countReadDoc (script_run env s ev).2.2 = 0 ∧
    PreStart (script_run env s ev).2.1 := by
  obtain ⟨hp, hi⟩ := hs
  cases ev with
  | start => exact absurd rfl hev
  | query q =>
      unfold script_run
      rw [init_block_cases]
      rcases hp with hp | hp <;> rcases hi with hi | hi <;>
        by_cases he : s.embeddings = none <;>
          simp [hp, hi, he, PreStart, countReadDoc, isReadDoc,
            List.countP_cons]

/-- A start action from a pre-start state: exactly one document read occurs
and the session lands on the chatbot page. -/
theorem script_run_start {V : Type} (env : Env V) (s : SessionState)
    (hs : PreStart s) :
    countReadDoc (script_run env s Event.start).2.2 = 1 ∧
    (script_run env s Event.start).2.1.page = some PageState.chatbot := by
  obtain ⟨hp, hi⟩ := hs
  unfold script_run
  rw [init_block_cases]
  rcases hp with hp | hp <;> rcases hi with hi | hi <;>
    by_cases he : s.embeddings = none <;>
      simp [hp, hi, he, start_handler, generate_and_upload_embeddings,
        countReadDoc, isReadDoc, List.countP_cons, List.countP_append,
        countP_map_createIndex_zero isReadDoc (fun _ => rfl),
        countP_uploadLoop_zero isReadDoc (fun _ _ => rfl) (fun _ => rfl),
        reading_document]

/-- A script rerun from the chatbot page: no document read occurs and the
page stays `chatbot`. -/
theorem script_run_chatbot {V : Type} (env : Env V) (s : SessionState)
    (ev : Event) (hs : s.page = some PageState.chatbot) :
    countReadDoc (script_run env s ev).2.2 = 0 ∧
    (script_run env s ev).2.1.page = some PageState.chatbot := by
  unfold script_run
  rw [init_block_cases]
  cases ev with
  | start =>
      by_cases he : s.embeddings = none <;>
        simp [hs, he, countReadDoc, isReadDoc, List.countP_cons]
  | query q =>
      by_cases he : s.embeddings = none <;> by_cases hq : q = "" <;>
        simp [hs, he, hq, countReadDoc, isReadDoc, List.countP_cons,
          List.countP_append,
          countP_get_result_zero isReadDoc (fun _ _ => rfl)
            (fun _ _ _ => rfl) (fun _ _ => rfl)]

/-- A whole session without any start action, from a pre-start state: no
document reads; the state stays pre-start. -/
theorem run_no_start {V : Type} :
    ∀ (events : List Event) (env : Env V) (s : SessionState),
    PreStart s → Event.start ∉ events →
    countReadDoc (run env s events).2.2 = 0 ∧
    PreStart (run env s events).2.1 := by
  intro events
  induction events with
  | nil =>
      intro env s hs _
      simpa [run, countReadDoc] using hs
  | cons ev t ih =>
      intro env s hs hev
      simp only [List.mem_cons, not_or] at hev
      have hstep := script_run_no_start env s ev hs (fun h => hev.1 h.symm)
      have hrest := ih (script_run env s ev).1 (script_run env s ev).2.1
        hstep.2 hev.2
      simp only [run]
      constructor
      · rw [countReadDoc_append, hstep.1, hrest.1]
      · exact hrest.2

/-- A whole session starting on the chatbot page: no document reads; the
page stays `chatbot`. -/
theorem run_chatbot {V : Type} :
    ∀ (events : List Event) (env : Env V) (s : SessionState),
    s.page = some PageState.chatbot →
    countReadDoc (run env s events).2.2 = 0 ∧
    (run env s events).2.1.page = some PageState.chatbot := by
  intro events
  induction events with
  | nil =>
      intro env s hs
      simpa [run, countReadDoc] using hs
  | cons ev t ih =>
      intro env s hs
      have hstep := script_run_chatbot env s ev hs
      have hrest := ih (script_run env s ev).1 (script_run env s ev).2.1 hstep.2
      simp only [run]
      constructor
      · rw [countReadDoc_append, hstep.1, hrest.1]
      · exact hrest.2

/-- Session runs decompose over concatenation of event lists. -/
theorem run_append {V : Type} :
    ∀ (xs ys : List Event) (env : Env V) (s : SessionState),
    run env s (xs ++ ys) =
      ((run (run env s xs).1 (run env s xs).2.1 ys).1,
       (run (run env s xs).1 (run env s xs).2.1 ys).2.1,
       (run env s xs).2.2 ++ (run (run env s xs).1 (run env s xs).2.1 ys).2.2) := by
  intro xs
  induction xs with
  | nil => intro ys env s; simp [run]
  | cons x t ih => intro ys env s; simp [run, ih, List.append_assoc]

/-- The initial session state is pre-start. -/
theorem initialSession_preStart : PreStart initialSession :=
  ⟨Or.inl rfl, Or.inl rfl⟩

/-- C1: (a) a session with no start action performs no ingestion pass
(no document read); (b) a session with exactly one start action — preceded by
any non-start events and followed by anything at all (queries, or further
start events, which are unreachable no-ops on the chatbot page) — performs
exactly one ingestion pass; (c) the start-button handler always runs the
Index Provisioner, and when `index_initialized` is `True` (a second start
action, were it reachable) it performs no ingestion pass. -/
theorem session_ingestion_once {V : Type} :
    (∀ (env : Env V) (events : List Event), Event.start ∉ events →
        countReadDoc (run env initialSession events).2.2 = 0) ∧
    (∀ (env : Env V) (pre post : List Event), Event.start ∉ pre →
        countReadDoc
          (run env initialSession (pre ++ Event.start :: post)).2.2 = 1) ∧
    (∀ (env : Env V) (s : SessionState),
        Effect.provisionCall ∈ (start_handler env s).2.2 ∧
        (s.index_initialized = some true →
          countReadDoc (start_handler env s).2.2 = 0)) := by
  refine ⟨?_, ?_, ?_⟩
  · intro env events hev
    exact (run_no_start events env initialSession initialSession_preStart hev).1
  · intro env pre post hpre
    have h1 := run_no_start pre env initialSession initialSession_preStart hpre
    rw [run_append]
    rw [countReadDoc_append, h1.1]
    have h2 := script_run_start (run env initialSession pre).1
      (run env initialSession pre).2.1 h1.2
    simp only [run]
    rw [countReadDoc_append, h2.1]
    have h3 := run_chatbot post
      (script_run (run env initialSession pre).1
        (run env initialSession pre).2.1 Event.start).1
      (script_run (run env initialSession pre).1
        (run env initialSession pre).2.1 Event.start).2.1 h2.2
    rw [h3.1]
  · intro env s
    constructor
    · unfold start_handler
      by_cases hb : s.index_initialized.getD false <;> simp [hb]
    · intro hinit
      unfold start_handler
      simp [hinit, countReadDoc, isReadDoc, List.countP_cons,
        countP_map_createIndex_zero isReadDoc (fun _ => rfl)]

/-- Witness for C1 at the concrete demo environment: a query-only session
reads the document zero times; a session with one start action reads it once
even with queries before and after and a second (no-op) start event; and a
start-handler invocation on an already-initialized state runs the provisioner
but reads the document zero times. -/
theorem session_ingestion_once_witness :
    countReadDoc (run demoEnv initialSession [Event.query "hi"]).2.2 = 0 ∧
    countReadDoc (run demoEnv initialSession
      ([Event.query "hi"] ++ Event.start ::
        [Event.query "x", Event.start])).2.2 = 1 ∧
    (Effect.provisionCall ∈
        (start_handler demoEnv ⟨some PageState.first_page, some true,
          some "titanic", some ⟨mpnetModel⟩⟩).2.2 ∧
      ((⟨some PageState.first_page, some true, some "titanic",
          some ⟨mpnetModel⟩⟩ : SessionState).index_initialized = some true →
        countReadDoc (start_handler demoEnv ⟨some PageState.first_page,
          some true, some "titanic", some ⟨mpnetModel⟩⟩).2.2 = 0)) :=
  ⟨(session_ingestion_once (V := Nat)).1 demoEnv [Event.query "hi"]
      (by decide),
   (session_ingestion_once (V := Nat)).2.1 demoEnv [Event.query "hi"]
      [Event.query "x", Event.start] (by decide),
   (session_ingestion_once (V := Nat)).2.2 demoEnv
      ⟨some PageState.first_page, some true, some "titanic", some ⟨mpnetModel⟩⟩⟩

/-- Every event the upload loop emits is a good embedding event (its embed
calls all use the handle it constructed, whose model name is `mpnetModel`). -/
theorem all_good_uploadLoop {V E : Type} (env : IngestEnv V E)
    (index : Option String) :
    ∀ (i : Nat) (chunks : List Chunk),
    ((uploadLoop env ⟨mpnetModel⟩ index i chunks).2.all goodEmbedEvent)
      = true := by
  intro i chunks
  induction chunks generalizing i with
  | nil => simp [uploadLoop]
  | cons c rest ih =>
      cases hE : env.embed_query ⟨mpnetModel⟩ c.page_content with
      | error e => simp [uploadLoop, hE, goodEmbedEvent]
      | ok w =>
          cases hU : env.upsert index [(s!"chunk-{i}", w, ⟨i, c.page_content⟩)] with
          | error e => simp [uploadLoop, hE, hU, goodEmbedEvent]
          | ok u => simp [uploadLoop, hE, hU, goodEmbedEvent, ih]

/-- Every create-index event the provisioner emits is a good embedding event
(its dimension is 768). -/
theorem all_good_createCalls {V : Type} (s : PineconeState) :
    (((initialize_pinecone s).2.2.map
        (Effect.createIndex : CreateCall → Effect V)).all goodEmbedEvent)
      = true := by
  unfold initialize_pinecone
  by_cases h : "titanic" ∈ s.names <;> simp [h, goodEmbedEvent]

/-- Every event on the query path (which uses the session handle) is a good
embedding event. -/
theorem all_good_get_result {V : Type} (qenv : QueryEnv V) (cenv : ChatEnv)
    (q : String) (index : Option String) :
    ((get_result qenv cenv q ⟨mpnetModel⟩ index).2.all
        (goodEmbedEvent (V := V))) = true := by
  unfold get_result retrieve_related_sections generate_response
  dsimp only
  split <;> simp [goodEmbedEvent]

/-- Every event the start-button handler emits is a good embedding event. -/
theorem all_good_start_handler {V : Type} (env : Env V) (s : SessionState) :
    ((start_handler env s).2.2.all goodEmbedEvent) = true := by
  unfold start_handler
  by_cases hb : s.index_initialized.getD false <;>
    simp [hb, generate_and_upload_embeddings, reading_document, goodEmbedEvent,
      List.all_append, all_good_uploadLoop, all_good_createCalls]

/-- The start-button handler does not touch the session's embeddings key. -/
theorem start_handler_embeddings {V : Type} (env : Env V) (s : SessionState) :
    (start_handler env s).2.1.embeddings = s.embeddings := by
  unfold start_handler
  by_cases hb : s.index_initialized.getD false <;> simp [hb]

/-- Unfolding equation for `goodEmbedEvent` on handle constructions. -/
theorem goodEmbedEvent_constructEmb {V : Type} (n : String) :
    goodEmbedEvent (V := V) (Effect.constructEmb n) = (n == mpnetModel) := rfl

/-- Membership form of `all_good_get_result`. -/
theorem goodEmbedEvent_mem_get_result {V : Type} (qenv : QueryEnv V)
    (cenv : ChatEnv) (q : String) (index : Option String) :
    ∀ ev ∈ (get_result qenv cenv q ⟨mpnetModel⟩ index).2,
    goodEmbedEvent (V := V) ev = true := by
  have h := all_good_get_result (V := V) qenv cenv q index
  simpa [List.all_eq_true] using h

/-- One script rerun from a state satisfying the embeddings invariant: every
emitted event is a good embedding event and the invariant is preserved. -/
theorem script_run_good {V : Type} (env : Env V) (s : SessionState)
    (ev : Event) (hs : EmbInv s) :
    ((script_run env s ev).2.2.all goodEmbedEvent = true) ∧
    EmbInv (script_run env s ev).2.1 := by
  unfold script_run
  rw [init_block_cases]
  rcases hs with hse | hse <;>
    cases hp : s.page with
    | none =>
        cases ev <;>
          simp [hp, hse, goodEmbedEvent, EmbInv, List.all_append,
            all_good_start_handler, start_handler_embeddings]
    | some pg =>
        cases pg with
        | first_page =>
            cases ev <;>
              simp [hp, hse, goodEmbedEvent, EmbInv, List.all_append,
                all_good_start_handler, start_handler_embeddings]
        | chatbot =>
            cases ev with
            | start => simp [hp, hse, goodEmbedEvent, EmbInv]
            | query q =>
                by_cases hq : q = "" <;>
                  simp [hp, hse, hq, EmbInv, goodEmbedEvent_constructEmb,
                    goodEmbedEvent_mem_get_result]
                all_goals
                  exact goodEmbedEvent_mem_get_result env.qenv env.cenv q
                    s.pinecone_index

/-- A whole session from a state satisfying the embeddings invariant: every
event in the trace is a good embedding event. -/
theorem run_good {V : Type} :
    ∀ (events : List Event) (env : Env V) (s : SessionState), EmbInv s →
    ((run env s events).2.2.all goodEmbedEvent = true) ∧
    EmbInv (run env s events).2.1 := by
  intro events
  induction events with
  | nil =>
      intro env s hs
      exact ⟨rfl, hs⟩
  | cons ev t ih =>
      intro env s hs
      have hstep := script_run_good env s ev hs
      have hrest := ih (script_run env s ev).1 (script_run env s ev).2.1 hstep.2
      simp only [run]
      constructor
      · rw [List.all_append, hstep.1, hrest.1]
        rfl
      · exact hrest.2

/-- C8 counterexample: in a concrete session whose single event is the start
action, two `HuggingFaceEmbeddings` constructions occur (one at line 118 for
the session state, one inside `generate_and_upload_embeddings` at line 58) —
not one, as the claim's "constructed once and passed by reference to both"
would require. -/
theorem embedding_handle_counterexample :
    countConstructEmb (run demoEnv initialSession [Event.start]).2.2 = 2 ∧
    countConstructEmb (run demoEnv initialSession [Event.start]).2.2 ≠ 1 := by
  constructor <;> decide

/-- C8 (amended): the same embedding model name
`"sentence-transformers/all-mpnet-base-v2"` is used wherever a handle is
constructed or an embedding is computed — both in ingestion and in the query
path — and every index creation uses dimension 768; but the handle is not
shared: the ingestion pipeline constructs its own handle, so a session whose
single event is the start action performs exactly two handle
constructions. -/
theorem embedding_model_consistency {V : Type} :
    (∀ (env : Env V) (events : List Event),
        ((run env initialSession events).2.2.all goodEmbedEvent) = true) ∧
    (∀ env : Env V,
        countConstructEmb (run env initialSession [Event.start]).2.2 = 2) := by
  constructor
  · intro env events
    exact (run_good events env initialSession (Or.inl rfl)).1
  · intro env
    simp only [run]
    unfold script_run
    rw [init_block_cases]
    simp [initialSession, start_handler, generate_and_upload_embeddings,
      reading_document, countConstructEmb, isConstructEmb, List.countP_cons,
      List.countP_append,
      countP_map_createIndex_zero isConstructEmb (fun _ => rfl),
      countP_uploadLoop_zero isConstructEmb (fun _ _ => rfl) (fun _ => rfl)]

/-- One step of the fuel-indexed sliding-window worker. -/
theorem slidingChunksAux_succ {α : Type} (cs co fuel : Nat) (text : List α) :
    slidingChunksAux cs co (fuel + 1) text =
      if text.length ≤ cs ∨ cs ≤ co then [text]
      else text.take cs ::
        slidingChunksAux cs co fuel (text.drop (cs - co)) := rfl

/-- On a 2200-element text, the spec's sliding window with `chunk_size=1000`
and `chunk_overlap=50` produces exactly the three windows at offsets 0, 950
and 1900. -/
theorem slidingChunks_2200 {α : Type} (l : List α) (h : l.length = 2200) :
    slidingChunks 1000 50 l =
      [l.take 1000, (l.drop 950).take 1000, (l.drop 950).drop 950] := by
  have h1 : (l.drop 950).length = 1250 := by
    simp [List.length_drop, h]
  have h2 : ((l.drop 950).drop 950).length = 300 := by
    simp [List.length_drop, h]
  unfold slidingChunks
  rw [h]
  rw [show (2200 : Nat) = 2199 + 1 from rfl, slidingChunksAux_succ, h]
  rw [if_neg (by decide : ¬((2200 : Nat) ≤ 1000 ∨ (1000 : Nat) ≤ 50))]
  rw [show (1000 : Nat) - 50 = 950 from rfl]
  rw [show (2199 : Nat) = 2198 + 1 from rfl, slidingChunksAux_succ, h1]
  rw [if_neg (by decide : ¬((1250 : Nat) ≤ 1000 ∨ (1000 : Nat) ≤ 50))]
  rw [show (1000 : Nat) - 50 = 950 from rfl]
  rw [show (2198 : Nat) = 2197 + 1 from rfl, slidingChunksAux_succ, h2]
  rw [if_pos (Or.inl (by decide : (300 : Nat) ≤ 1000))]

/-- C9 counterexample: on a concrete 2200-character page text, the sliding
window the spec describes yields chunk lengths [1000, 1000, 300], not
[1000, 1000, 200] as the claim's scenario states (indeed no windows of
lengths [1000, 1000, 200] with 50 shared characters between consecutive
windows can cover 2200 characters). -/
theorem chunker_scenario_counterexample :
    (slidingChunks 1000 50 (List.replicate 2200 (0 : Nat))).map List.length
      ≠ [1000, 1000, 200] := by
  rw [slidingChunks_2200 (List.replicate 2200 (0 : Nat))
    (by rw [List.length_replicate])]
  simp only [List.map_cons, List.map_nil, List.length_take, List.length_drop,
    List.length_replicate]
  decide

/-- C9 (amended): for any document whose page text totals 2200 characters,
chunking with `chunk_size=1000` and `chunk_overlap=50` produces exactly 3
chunks of lengths [1000, 1000, 300]; every chunk has length at most
`chunk_size`, and each pair of consecutive chunks shares exactly 50
characters (the last 50 of one chunk are the first 50 of the next). -/
theorem chunker_scenario_amended {α : Type} (l : List α)
    (h : l.length = 2200) :
    ((slidingChunks 1000 50 l).map List.length = [1000, 1000, 300]) ∧
    (∀ c ∈ slidingChunks 1000 50 l, c.length ≤ 1000) ∧
    ((slidingChunks 1000 50 l)[0]?.map (fun c => c.drop 950) =
      (slidingChunks 1000 50 l)[1]?.map (fun c => c.take 50)) ∧
    ((slidingChunks 1000 50 l)[1]?.map (fun c => c.drop 950) =
      (slidingChunks 1000 50 l)[2]?.map (fun c => c.take 50)) := by
  rw [slidingChunks_2200 l h]
  refine ⟨?_, ?_, ?_, ?_⟩
  · simp [List.length_take, List.length_drop, h]
  · intro c hc
    simp only [List.mem_cons, List.not_mem_nil, or_false] at hc
    rcases hc with rfl | rfl | rfl
    · simp only [List.length_take]
      omega
    · simp only [List.length_take]
      omega
    · simp only [List.length_drop, h]
      omega
  · simp [List.drop_take, List.take_take]
  · simp [List.drop_take]

/-- Witness for C9 (amended) at a concrete 2200-character text. -/
theorem chunker_scenario_amended_witness :
    ((slidingChunks 1000 50 (List.replicate 2200 (0 : Nat))).map List.length
        = [1000, 1000, 300]) ∧
    (∀ c ∈ slidingChunks 1000 50 (List.replicate 2200 (0 : Nat)),
        c.length ≤ 1000) ∧
    ((slidingChunks 1000 50 (List.replicate 2200 (0 : Nat)))[0]?.map
        (fun c => c.drop 950) =
      (slidingChunks 1000 50 (List.replicate 2200 (0 : Nat)))[1]?.map
        (fun c => c.take 50)) ∧
    ((slidingChunks 1000 50 (List.replicate 2200 (0 : Nat)))[1]?.map
        (fun c => c.drop 950) =
      (slidingChunks 1000 50 (List.replicate 2200 (0 : Nat)))[2]?.map
        (fun c => c.take 50)) :=
  chunker_scenario_amended (List.replicate 2200 (0 : Nat))
    (by rw [List.length_replicate])

end TitanicApp
